import Mathlib

/-!
Verification of the room-allocation core of `app.py` (SSK ARMS).

The allocation core (time-slot parsing, conflict detection, room
classification, priority shuffling, and the greedy allocation engine) is
embedded shallowly below, function by function, from `app.py`.  The
surrounding Streamlit UI, file loading and chart code carry no algorithmic
content and are out of scope.  `random.shuffle` is modelled by an explicit
shuffle oracle `σ : Nat → List String → List String` (call number ↦
permutation applied at that call); theorems quantify over `σ`, adding the
permutation hypothesis exactly where a property depends on it.
-/

set_option maxHeartbeats 1000000

namespace RoomAlloc

/-- Python regex class `\s` restricted to the ASCII texts this app handles:
space, tab, newline, carriage return, vertical tab, form feed. -/
def pyIsSpace (c : Char) : Bool :=
  c = ' ' || c = '\t' || c = '\n' || c = '\r' || c = '\x0b' || c = '\x0c'

/-- A separator character of `re.split(r'[/,&\s]+', days_str.lower())`
in `parse_time_slot`. -/
def sepChar (c : Char) : Bool :=
  c = '/' || c = ',' || c = '&' || pyIsSpace c

/-- Regex class `\d` on the ASCII schedule texts. -/
def isDigitChar (c : Char) : Bool :=
  48 ≤ c.toNat && c.toNat ≤ 57

/-- Numeric value of an ASCII digit character. -/
def digitVal (c : Char) : Nat := c.toNat - 48

/-- Splitting worker: `cur` accumulates (reversed) the token being read. -/
def tokensAux (cur : List Char) : List Char → List (List Char)
  | [] => if cur.isEmpty then [] else [cur.reverse]
  | c :: cs =>
    if sepChar c then
      if cur.isEmpty then tokensAux [] cs
      else cur.reverse :: tokensAux [] cs
    else tokensAux (c :: cur) cs

/-- The maximal runs of non-separator characters, in order: exactly the
nonempty pieces of `re.split(r'[/,&\s]+', ...)`.  (The split can also
produce empty pieces at the two ends; an empty token matches no dictionary
key and has length < 3, so the day lookup drops it either way.) -/
def tokens (cs : List Char) : List (List Char) :=
  tokensAux [] cs

/-- Weekday codes (the values of the source's `day_mapping`). -/
inductive Day where
  | Mon | Tue | Wed | Thu | Fri | Sat | Sun
  deriving DecidableEq, Repr

/-- The source's `day_mapping` dict, in its insertion order. -/
def day_mapping : List (List Char × Day) :=
  [("monday".data, .Mon), ("tuesday".data, .Tue), ("wednesday".data, .Wed),
   ("thursday".data, .Thu), ("friday".data, .Fri), ("saturday".data, .Sat),
   ("sunday".data, .Sun),
   ("mon".data, .Mon), ("tue".data, .Tue), ("wed".data, .Wed),
   ("thu".data, .Thu), ("fri".data, .Fri), ("sat".data, .Sat),
   ("sun".data, .Sun)]

/-- Resolve one lowercased, already separator-free token, as in the
source's day loop: exact dictionary lookup first, otherwise (for tokens of
length ≥ 3) the first dictionary entry whose key's first three characters
the token starts with. -/
def dayOfToken (t : List Char) : Option Day :=
  match day_mapping.find? (fun p => p.1 == t) with
  | some p => some p.2
  | none =>
    if 3 ≤ t.length then
      (day_mapping.find? (fun p => (p.1.take 3).isPrefixOf t)).map (fun p => p.2)
    else none

/-- Field `\d{1,2}` (greedy) of the time regex, as a numeric value plus the rest.
The caller then requires `':'`; backtracking from two consumed digits to
one can never help, because the character that made the two-digit branch
fail is a digit and `':'` is not, so maximal munch is equivalent to the
regex engine's behaviour. -/
def readHourDigits : List Char → Option (Nat × List Char)
  | [] => none
  | [c] => if isDigitChar c then some (digitVal c, []) else none
  | c1 :: c2 :: rest =>
    if isDigitChar c1 then
      if isDigitChar c2 then some (digitVal c1 * 10 + digitVal c2, rest)
      else some (digitVal c1, c2 :: rest)
    else none

/-- Require one specific character. -/
def expectChar (c : Char) : List Char → Option (List Char)
  | [] => none
  | d :: rest => if d = c then some rest else none

/-- Field `\d{2}`: exactly two digits, as a numeric value plus the rest. -/
def readMinuteDigits : List Char → Option (Nat × List Char)
  | c1 :: c2 :: rest =>
    if isDigitChar c1 && isDigitChar c2 then
      some (digitVal c1 * 10 + digitVal c2, rest)
    else none
  | _ => none

/-- Field `\s*` (greedy; in this pattern it is always followed by a non-space
requirement, so maximal munch is equivalent). -/
def skipSpaces (cs : List Char) : List Char := cs.dropWhile pyIsSpace

/-- Field `(AM|PM)` with `re.IGNORECASE`; returns `true` for PM. -/
def readMeridiem : List Char → Option (Bool × List Char)
  | c1 :: c2 :: rest =>
    if (c1 = 'A' || c1 = 'a' || c1 = 'P' || c1 = 'p') &&
        (c2 = 'M' || c2 = 'm') then
      some (c1 = 'P' || c1 = 'p', rest)
    else none
  | _ => none

/-- One endpoint `(\d{1,2}):(\d{2})\s*(AM|PM)` of the time pattern. -/
def readEndpoint (cs : List Char) : Option (Nat × Nat × Bool × List Char) :=
  match readHourDigits cs with
  | none => none
  | some (h, cs1) =>
    match expectChar ':' cs1 with
    | none => none
    | some cs2 =>
      match readMinuteDigits cs2 with
      | none => none
      | some (m, cs3) =>
        match readMeridiem (skipSpaces cs3) with
        | none => none
        | some (pm, cs4) => some (h, m, pm, cs4)

/-- One attempt of the source's time pattern
`(\d{1,2}):(\d{2})\s*(AM|PM)\s*-\s*(\d{1,2}):(\d{2})\s*(AM|PM)`
anchored at this position. -/
def timeMatchAt (cs : List Char) : Option (Nat × Nat × Bool × Nat × Nat × Bool) :=
  match readEndpoint cs with
  | none => none
  | some (h1, m1, pm1, cs1) =>
    match expectChar '-' (skipSpaces cs1) with
    | none => none
    | some cs2 =>
      match readEndpoint (skipSpaces cs2) with
      | none => none
      | some (h2, m2, pm2, _) => some (h1, m1, pm1, h2, m2, pm2)

/-- Search as `re.search` of the time pattern: the leftmost position at which the
pattern matches, scanning left to right. -/
def findTimePattern : List Char → Option (Nat × Nat × Bool × Nat × Nat × Bool)
  | [] => none
  | c :: rest =>
    match timeMatchAt (c :: rest) with
    | some g => some g
    | none => findTimePattern rest

/-- The source's `to_minutes` closure (12-hour clock to minutes from
midnight): PM and hour ≠ 12 adds 12 hours; AM with hour 12 becomes hour 0. -/
def to_minutes (hour minute : Nat) (pm : Bool) : Nat :=
  let h :=
    if pm && hour != 12 then hour + 12
    else if !pm && hour == 12 then 0
    else hour
  h * 60 + minute

/-- The dict returned by `parse_time_slot` on success. -/
structure TimeSlot where
  days : List Day
  start_time : Nat
  end_time : Nat
  original_days : String
  original_time : String
  deriving DecidableEq, Repr

/-- The source's `parse_time_slot(days_str, time_str)`.  A missing (NaN) input is the
`none` case of the `Option` arguments.  `str(x).strip()` is dropped as a
no-op here: outer whitespace characters are split separators for the day
text, and `re.search` scans every position of the time text. -/
def parse_time_slot (days_str time_str : Option String) : Option TimeSlot :=
  match days_str, time_str with
  | some ds, some ts =>
    let days_list := tokens (ds.data.map Char.toLower)
    let standardized_days := days_list.filterMap dayOfToken
    match standardized_days with
    | [] => none
    | d :: rest =>
      match findTimePattern ts.data with
      | none => none
      | some (h1, m1, pm1, h2, m2, pm2) =>
        some { days := d :: rest,
               start_time := to_minutes h1 m1 pm1,
               end_time := to_minutes h2 m2 pm2,
               original_days := ds,
               original_time := ts }
  | _, _ => none

/-- Python `str.strip()` on the ASCII course codes. -/
def pyStrip (cs : List Char) : List Char :=
  ((cs.dropWhile pyIsSpace).reverse.dropWhile pyIsSpace).reverse

/-- The source's `needs_lab_room(course_code)`: NaN is `none`; else uppercase, strip,
and test the fixed lab prefixes MIS, CSC, BDS, SEC. -/
def needs_lab_room (course_code : Option String) : Bool :=
  match course_code with
  | none => false
  | some cc =>
    let u := pyStrip (cc.data.map Char.toUpper)
    ["MIS".data, "CSC".data, "BDS".data, "SEC".data].any
      (fun p => p.isPrefixOf u)

/-- Python `needle in haystack` substring test. -/
def containsSub (needle : List Char) : List Char → Bool
  | [] => needle.isEmpty
  | c :: rest => needle.isPrefixOf (c :: rest) || containsSub needle rest

/-- The source's `is_lab_room(room_name)`. -/
def is_lab_room (room_name : String) : Bool :=
  let s := room_name.data.map Char.toUpper
  containsSub "IT LAB".data s || containsSub "ITROOM".data s ||
    containsSub "IT_LAB".data s || containsSub "IT_ROOM".data s

/-- The source's `get_room_priority_group(room_name)`: first matching zone rule wins. -/
def get_room_priority_group (room_name : String) : Nat :=
  let s := room_name.data.map Char.toUpper
  if containsSub "CBM".data s then 1
  else if containsSub "SSK".data s then 2
  else if containsSub "I.MGMT".data s || containsSub "IMGMT".data s then 3
  else if containsSub "LIB".data s then 4
  else if containsSub "CREKCLG".data s || containsSub "CHS".data s ||
      containsSub "CREEK".data s || containsSub "CRK".data s then 5
  else 6

/-- The source's `has_time_conflict(slot1, slot2)`; Python falsiness of `None` is the
`none` case (parse never yields an empty dict, the only other falsy slot
value). -/
def has_time_conflict (slot1 slot2 : Option TimeSlot) : Bool :=
  match slot1, slot2 with
  | some s1, some s2 =>
    if s1.days.any (fun d => s2.days.any (fun e => decide (d = e))) then
      !(decide (s1.end_time ≤ s2.start_time) ||
        decide (s2.end_time ≤ s1.start_time))
    else false
  | _, _ => false

/-- The recursion of `distribute_rooms_by_priority` over the sorted
priority keys.  Every priority is in 1..6, so iterating the sorted keys of
the source's dict of nonempty groups is iterating `[1,...,6]` and skipping
the priorities whose group is empty; grouping a list by priority preserves
the list's order inside each group, which `List.filter` reproduces.  `k`
numbers the calls to the shuffle oracle within the run. -/
def distribute_go (σ : Nat → List String → List String)
    (rooms_list exclude_allocated : List String) :
    List Nat → Nat → List String × Nat
  | [], k => ([], k)
  | p :: ps, k =>
    let group := rooms_list.filter (fun room =>
      !decide (room ∈ exclude_allocated) &&
        get_room_priority_group room == p)
    if group.isEmpty then
      distribute_go σ rooms_list exclude_allocated ps k
    else
      let rest := distribute_go σ rooms_list exclude_allocated ps (k + 1)
      (σ k group ++ rest.1, rest.2)

/-- The source's `distribute_rooms_by_priority(rooms_list, exclude_allocated)`: group
the non-excluded rooms by priority, shuffle within each group, concatenate
the groups in ascending priority order. -/
def distribute_rooms_by_priority (σ : Nat → List String → List String)
    (rooms_list exclude_allocated : List String) (k : Nat) :
    List String × Nat :=
  distribute_go σ rooms_list exclude_allocated [1, 2, 3, 4, 5, 6] k

/-- The engine-relevant columns of one course row.  The source copies the
remaining columns (section, title, faculty, students, semester, catalog
year) into `course_dict` verbatim and never reads them for any allocation
decision; `program` is kept because the spec discusses it, and it too is
never read by the engine. -/
structure Session where
  program : Option String
  course_code : Option String
  days : Option String
  times : Option String
  deriving DecidableEq, Repr

/-- One entry of the `allocated_courses` result: the copied course row
plus the single `allocated_room` outcome field. -/
structure AllocatedCourse where
  course : Session
  allocated_room : String
  deriving DecidableEq, Repr

/-- The run state of `allocate_rooms`: `room_schedule` (total map; the
source's dict has exactly `rooms_list` as keys and every room it is asked
for is drawn from `rooms_list`), the `recently_allocated` set (as a
duplicate-free list), `allocation_counter`, `rooms_required_count`, and
the shuffle-call counter for the oracle. -/
structure AllocState where
  room_schedule : String → List TimeSlot
  recently_allocated : List String
  allocation_counter : Nat
  rooms_required_count : Nat
  shuffle_idx : Nat

/-- The candidate room list (and next shuffle-call number) built for one
course: for lab courses prioritized labs then prioritized regular rooms,
otherwise prioritized regular rooms then prioritized labs. -/
def preferred_rooms (σ : Nat → List String → List String)
    (lab_rooms regular_rooms : List String) (st : AllocState)
    (course : Session) : List String × Nat :=
  if needs_lab_room course.course_code then
    let lp := distribute_rooms_by_priority σ lab_rooms
      st.recently_allocated st.shuffle_idx
    let rp := distribute_rooms_by_priority σ regular_rooms
      st.recently_allocated lp.2
    (lp.1 ++ rp.1, rp.2)
  else
    let rp := distribute_rooms_by_priority σ regular_rooms
      st.recently_allocated st.shuffle_idx
    let lp := distribute_rooms_by_priority σ lab_rooms
      st.recently_allocated rp.2
    (rp.1 ++ lp.1, lp.2)

/-- The inner conflict scan for one candidate room: true when no slot
already recorded for the room conflicts with this course's slot. -/
def room_free (st : AllocState) (time_slot : TimeSlot) (room : String) : Bool :=
  !(st.room_schedule room).any (fun existing_slot =>
    has_time_conflict (some time_slot) (some existing_slot))

/-- The state update of a successful allocation: append to the room's
ledger, add the room to the recently-allocated set, bump the counter, and
record the shuffle-call position. -/
def success_state (st : AllocState) (room : String) (time_slot : TimeSlot)
    (idx : Nat) : AllocState :=
  { st with
    room_schedule := fun r =>
      if r = room then st.room_schedule r ++ [time_slot]
      else st.room_schedule r,
    recently_allocated :=
      if room ∈ st.recently_allocated then st.recently_allocated
      else room :: st.recently_allocated,
    allocation_counter := st.allocation_counter + 1,
    shuffle_idx := idx }

/-- The end-of-iteration fairness reset: clear the recently-allocated set
whenever the allocation counter is a multiple of 8. -/
def fairness_reset (st : AllocState) : AllocState :=
  if st.allocation_counter % 8 == 0 then
    { st with recently_allocated := [] }
  else st

/-- The body of the `for index, course in df.iterrows()` loop for one
course: parse check, candidate construction, greedy first fit, shortfall,
and the every-8 fairness reset (which the `continue` of the invalid-slot
branch skips). -/
def allocate_step (σ : Nat → List String → List String)
    (lab_rooms regular_rooms : List String) (st : AllocState)
    (course : Session) : AllocatedCourse × AllocState :=
  match parse_time_slot course.days course.times with
  | none =>
    ({ course := course, allocated_room := "INVALID TIME SLOT" }, st)
  | some time_slot =>
    let pr := preferred_rooms σ lab_rooms regular_rooms st course
    match pr.1.find? (room_free st time_slot) with
    | some room =>
      ({ course := course, allocated_room := room },
        fairness_reset (success_state st room time_slot pr.2))
    | none =>
      ({ course := course, allocated_room := "ROOM REQUIRED" },
        fairness_reset
          { st with
            rooms_required_count := st.rooms_required_count + 1,
            shuffle_idx := pr.2 })

/-- The engine's course loop, in input order. -/
def allocate_loop (σ : Nat → List String → List String)
    (lab_rooms regular_rooms : List String) :
    AllocState → List Session → List AllocatedCourse × AllocState
  | st, [] => ([], st)
  | st, course :: rest =>
    let r := allocate_step σ lab_rooms regular_rooms st course
    let rr := allocate_loop σ lab_rooms regular_rooms r.2 rest
    (r.1 :: rr.1, rr.2)

/-- The initial run state of `allocate_rooms`. -/
def initState : AllocState :=
  { room_schedule := fun _ => []
    recently_allocated := []
    allocation_counter := 0
    rooms_required_count := 0
    shuffle_idx := 0 }

/-- The run of `allocate_rooms` including its final state (the source discards the
state; it is exposed here so invariants can be stated about it). -/
def allocate_run (σ : Nat → List String → List String)
    (courses : List Session) (rooms_list : List String) :
    List AllocatedCourse × AllocState :=
  allocate_loop σ (rooms_list.filter (fun r => is_lab_room r))
    (rooms_list.filter (fun r => !is_lab_room r)) initState courses

/-- The source's `allocate_rooms(courses_df, rooms_list)`: returns the annotated course
list (in input order) and `rooms_required_count`. -/
def allocate_rooms (σ : Nat → List String → List String)
    (courses : List Session) (rooms_list : List String) :
    List AllocatedCourse × Nat :=
  let r := allocate_run σ courses rooms_list
  (r.1, r.2.rooms_required_count)

/-- Default entry used with `List.getD` in theorem statements. -/
def dfltOut : AllocatedCourse :=
  { course := { program := none, course_code := none, days := none, times := none }
    allocated_room := "" }

/-- Default session used with `List.getD` in theorem statements. -/
def dfltSession : Session :=
  { program := none, course_code := none, days := none, times := none }

/-- The identity shuffle: one possible draw of `random.shuffle`. -/
def identityShuffle : Nat → List String → List String := fun _ l => l

/-- A shuffle oracle that is not a permutation (theorems quantified over
every oracle may be instantiated with it). -/
def constR1Shuffle : Nat → List String → List String := fun _ _ => ["R1"]

/-- A Monday 9:00-10:00 AM session. -/
def monNineSession : Session :=
  { program := none, course_code := none,
    days := some "Mon", times := some "9:00 AM - 10:00 AM" }

/-- A Monday 10:00-11:00 AM session (touches `monNineSession`). -/
def monTenSession : Session :=
  { program := none, course_code := none,
    days := some "Mon", times := some "10:00 AM - 11:00 AM" }

/-- A Friday session. -/
def friSession : Session :=
  { program := none, course_code := none,
    days := some "Fri", times := some "9:00 AM - 10:00 AM" }

/-- A session of a research/thesis program. -/
def researchSession : Session :=
  { program := some "MS (Research) Thesis", course_code := none,
    days := some "Mon", times := some "9:00 AM - 10:00 AM" }

/-- A lab-requiring session (course code prefix MIS). -/
def misSession : Session :=
  { program := none, course_code := some "MIS101",
    days := some "Mon", times := some "9:00 AM - 10:00 AM" }

/-- A session whose time text is the spec's malformed example. -/
def malformedSession : Session :=
  { program := none, course_code := none,
    days := some "Mon", times := some "25:99 AM - 3:00 PM" }

theorem has_time_conflict_comm (a b : Option TimeSlot) :
    has_time_conflict a b = has_time_conflict b a := by
  cases a with
  | none => cases b <;> rfl
  | some s1 =>
    cases b with
    | none => rfl
    | some s2 =>
      simp only [has_time_conflict]
      have hdays : (s1.days.any fun d => s2.days.any fun e => decide (d = e)) =
          (s2.days.any fun d => s1.days.any fun e => decide (d = e)) := by
        rw [Bool.eq_iff_iff]
        simp only [List.any_eq_true, decide_eq_true_eq]
        constructor
        · rintro ⟨d, hd, e, he, hde⟩
          exact ⟨e, he, d, hd, hde.symm⟩
        · rintro ⟨d, hd, e, he, hde⟩
          exact ⟨e, he, d, hd, hde.symm⟩
      rw [hdays]
      rcases Bool.eq_false_or_eq_true
          (s2.days.any fun d => s1.days.any fun e => decide (d = e)) with hc | hc <;>
        simp [hc, Bool.or_comm]

theorem mem_distribute_go {σ : Nat → List String → List String}
    (hσ : ∀ n l, (σ n l).Perm l) {rooms_list exclude_allocated : List String}
    {r : String} :
    ∀ {ps : List Nat} {k : Nat},
      r ∈ (distribute_go σ rooms_list exclude_allocated ps k).1 →
      r ∈ rooms_list ∧ ¬ r ∈ exclude_allocated := by
  intro ps
  induction ps with
  | nil => intro k h; simp [distribute_go] at h
  | cons p ps ih =>
    intro k h
    rw [distribute_go] at h
    by_cases hg : (rooms_list.filter (fun room =>
        !decide (room ∈ exclude_allocated) &&
          get_room_priority_group room == p)).isEmpty
    · rw [if_pos hg] at h
      exact ih h
    · rw [if_neg hg] at h
      rcases List.mem_append.mp h with h1 | h2
      · have hmem := (hσ k _).mem_iff.mp h1
        have := List.mem_filter.mp hmem
        refine ⟨this.1, ?_⟩
        have hb := this.2
        simp only [Bool.and_eq_true, Bool.not_eq_true', decide_eq_false_iff_not] at hb
        exact hb.1
      · exact ih h2

theorem mem_distribute {σ : Nat → List String → List String}
    (hσ : ∀ n l, (σ n l).Perm l) {rooms_list exclude_allocated : List String}
    {k : Nat} {r : String}
    (h : r ∈ (distribute_rooms_by_priority σ rooms_list exclude_allocated k).1) :
    r ∈ rooms_list ∧ ¬ r ∈ exclude_allocated :=
  mem_distribute_go hσ h

theorem fairness_reset_sched (st : AllocState) :
    (fairness_reset st).room_schedule = st.room_schedule := by
  rw [fairness_reset]
  split <;> rfl

theorem fairness_reset_counter (st : AllocState) :
    (fairness_reset st).allocation_counter = st.allocation_counter := by
  rw [fairness_reset]
  split <;> rfl

theorem fairness_reset_required (st : AllocState) :
    (fairness_reset st).rooms_required_count = st.rooms_required_count := by
  rw [fairness_reset]
  split <;> rfl

theorem allocate_step_course (σ : Nat → List String → List String)
    (lab_rooms regular_rooms : List String) (st : AllocState) (c : Session) :
    (allocate_step σ lab_rooms regular_rooms st c).1.course = c := by
  rw [allocate_step]
  cases parse_time_slot c.days c.times with
  | none => rfl
  | some slot =>
    dsimp only
    split <;> rfl

theorem allocate_step_sched_mono (σ : Nat → List String → List String)
    (lab_rooms regular_rooms : List String) (st : AllocState) (c : Session)
    {r : String} {e : TimeSlot} (h : e ∈ st.room_schedule r) :
    e ∈ (allocate_step σ lab_rooms regular_rooms st c).2.room_schedule r := by
  rw [allocate_step]
  cases parse_time_slot c.days c.times with
  | none => exact h
  | some slot =>
    dsimp only
    split
    · rw [fairness_reset_sched]
      simp only [success_state]
      split
      · exact List.mem_append_left _ h
      · exact h
    · rw [fairness_reset_sched]
      exact h

theorem mem_preferred {σ : Nat → List String → List String}
    (hσ : ∀ n l, (σ n l).Perm l) {lab_rooms regular_rooms : List String}
    {st : AllocState} {c : Session} {r : String}
    (h : r ∈ (preferred_rooms σ lab_rooms regular_rooms st c).1) :
    (r ∈ lab_rooms ∨ r ∈ regular_rooms) ∧ ¬ r ∈ st.recently_allocated := by
  rw [preferred_rooms] at h
  split at h <;>
    rcases List.mem_append.mp h with h1 | h1 <;>
      rcases mem_distribute hσ h1 with ⟨hm, hx⟩
  · exact ⟨Or.inl hm, hx⟩
  · exact ⟨Or.inr hm, hx⟩
  · exact ⟨Or.inr hm, hx⟩
  · exact ⟨Or.inl hm, hx⟩

/-- The three possible shapes of one loop iteration: invalid time slot,
successful allocation, or shortfall. -/
theorem allocate_step_cases (σ : Nat → List String → List String)
    (lab_rooms regular_rooms : List String) (st : AllocState) (c : Session) :
    (parse_time_slot c.days c.times = none ∧
      (allocate_step σ lab_rooms regular_rooms st c).1.allocated_room =
        "INVALID TIME SLOT" ∧
      (allocate_step σ lab_rooms regular_rooms st c).2 = st) ∨
    (∃ slot room,
      parse_time_slot c.days c.times = some slot ∧
      (preferred_rooms σ lab_rooms regular_rooms st c).1.find?
        (room_free st slot) = some room ∧
      (allocate_step σ lab_rooms regular_rooms st c).1.allocated_room = room ∧
      (allocate_step σ lab_rooms regular_rooms st c).2 =
        fairness_reset (success_state st room slot
          (preferred_rooms σ lab_rooms regular_rooms st c).2)) ∨
    (∃ slot,
      parse_time_slot c.days c.times = some slot ∧
      (preferred_rooms σ lab_rooms regular_rooms st c).1.find?
        (room_free st slot) = none ∧
      (allocate_step σ lab_rooms regular_rooms st c).1.allocated_room =
        "ROOM REQUIRED" ∧
      (allocate_step σ lab_rooms regular_rooms st c).2 =
        fairness_reset
          { st with
            rooms_required_count := st.rooms_required_count + 1,
            shuffle_idx := (preferred_rooms σ lab_rooms regular_rooms st c).2 }) := by
  cases hp : parse_time_slot c.days c.times with
  | none =>
    refine Or.inl ⟨rfl, ?_, ?_⟩ <;> rw [allocate_step, hp]
  | some slot =>
    cases hf : (preferred_rooms σ lab_rooms regular_rooms st c).1.find?
        (room_free st slot) with
    | some room =>
      refine Or.inr (Or.inl ⟨slot, room, rfl, hf, ?_, ?_⟩) <;>
        rw [allocate_step, hp] <;> dsimp only <;> rw [hf]
    | none =>
      refine Or.inr (Or.inr ⟨slot, rfl, hf, ?_, ?_⟩) <;>
        rw [allocate_step, hp] <;> dsimp only <;> rw [hf]

theorem room_free_of_find? {st : AllocState} {slot : TimeSlot}
    {l : List String} {room : String}
    (h : l.find? (room_free st slot) = some room) :
    ∀ e ∈ st.room_schedule room,
      has_time_conflict (some slot) (some e) = false := by
  intro e he
  have hp := List.find?_some h
  rw [room_free] at hp
  simp only [Bool.not_eq_true', List.any_eq_false] at hp
  simpa using hp e he

theorem success_state_sched_self (st : AllocState) (room : String)
    (slot : TimeSlot) (idx : Nat) :
    (success_state st room slot idx).room_schedule room =
      st.room_schedule room ++ [slot] := by
  simp [success_state]

theorem allocate_loop_length (σ : Nat → List String → List String)
    (lab_rooms regular_rooms : List String) :
    ∀ (cs : List Session) (st : AllocState),
      (allocate_loop σ lab_rooms regular_rooms st cs).1.length = cs.length := by
  intro cs
  induction cs with
  | nil => intro st; rfl
  | cons c cs ih =>
    intro st
    rw [allocate_loop]
    dsimp only
    rw [List.length_cons, ih, List.length_cons]

theorem allocate_loop_getD_course (σ : Nat → List String → List String)
    (lab_rooms regular_rooms : List String) :
    ∀ (cs : List Session) (st : AllocState) (i : Nat), i < cs.length →
      ((allocate_loop σ lab_rooms regular_rooms st cs).1.getD i dfltOut).course =
        cs.getD i dfltSession := by
  intro cs
  induction cs with
  | nil => intro st i hi; exact absurd hi (Nat.not_lt_zero i)
  | cons c cs ih =>
    intro st i hi
    rw [allocate_loop]
    dsimp only
    cases i with
    | zero => exact allocate_step_course σ lab_rooms regular_rooms st c
    | succ i => exact ih _ i (Nat.lt_of_succ_lt_succ hi)

theorem allocate_loop_sched_mono (σ : Nat → List String → List String)
    (lab_rooms regular_rooms : List String) :
    ∀ (cs : List Session) (st : AllocState) {r : String} {e : TimeSlot},
      e ∈ st.room_schedule r →
      e ∈ (allocate_loop σ lab_rooms regular_rooms st cs).2.room_schedule r := by
  intro cs
  induction cs with
  | nil => intro st r e h; exact h
  | cons c cs ih =>
    intro st r e h
    rw [allocate_loop]
    exact ih _ (allocate_step_sched_mono σ lab_rooms regular_rooms st c h)

/-- Any course that came out of the loop with a genuine room name was
parsed successfully and conflict-checked against everything the room's
ledger held when the loop started. -/
theorem allocate_loop_assigned (σ : Nat → List String → List String)
    (lab_rooms regular_rooms : List String) :
    ∀ (cs : List Session) (st : AllocState) (k : Nat), k < cs.length →
      ((allocate_loop σ lab_rooms regular_rooms st cs).1.getD k
        dfltOut).allocated_room ≠ "ROOM REQUIRED" →
      ((allocate_loop σ lab_rooms regular_rooms st cs).1.getD k
        dfltOut).allocated_room ≠ "INVALID TIME SLOT" →
      ∃ slot,
        parse_time_slot
          ((allocate_loop σ lab_rooms regular_rooms st cs).1.getD k
            dfltOut).course.days
          ((allocate_loop σ lab_rooms regular_rooms st cs).1.getD k
            dfltOut).course.times = some slot ∧
        ∀ e ∈ st.room_schedule
          ((allocate_loop σ lab_rooms regular_rooms st cs).1.getD k
            dfltOut).allocated_room,
          has_time_conflict (some slot) (some e) = false := by
  intro cs
  induction cs with
  | nil => intro st k hk; exact absurd hk (Nat.not_lt_zero k)
  | cons c cs ih =>
    intro st k hk hRR hITS
    rw [allocate_loop] at hRR hITS ⊢
    dsimp only at hRR hITS ⊢
    cases k with
    | zero =>
      simp only [List.getD_cons_zero] at hRR hITS ⊢
      rcases allocate_step_cases σ lab_rooms regular_rooms st c with
        ⟨_, hout, _⟩ | ⟨slot, room, hp, hf, hout, _⟩ | ⟨slot, _, _, hout, _⟩
      · exact absurd hout hITS
      · refine ⟨slot, ?_, ?_⟩
        · rw [allocate_step_course, hp]
        · rw [hout]
          exact room_free_of_find? hf
      · exact absurd hout hRR
    | succ k =>
      simp only [List.getD_cons_succ] at hRR hITS ⊢
      rcases ih _ k (Nat.lt_of_succ_lt_succ hk) hRR hITS with ⟨slot, hps, hall⟩
      refine ⟨slot, hps, ?_⟩
      intro e he
      exact hall e (allocate_step_sched_mono σ lab_rooms regular_rooms st c he)

/-- No double booking, at loop level: two outputs carrying the same
genuine room name have non-conflicting parsed slots. -/
theorem allocate_loop_no_double (σ : Nat → List String → List String)
    (lab_rooms regular_rooms : List String) :
    ∀ (cs : List Session) (st : AllocState) (i j : Nat), i < j →
      j < cs.length →
      ((allocate_loop σ lab_rooms regular_rooms st cs).1.getD i
        dfltOut).allocated_room =
        ((allocate_loop σ lab_rooms regular_rooms st cs).1.getD j
          dfltOut).allocated_room →
      ((allocate_loop σ lab_rooms regular_rooms st cs).1.getD i
        dfltOut).allocated_room ≠ "ROOM REQUIRED" →
      ((allocate_loop σ lab_rooms regular_rooms st cs).1.getD i
        dfltOut).allocated_room ≠ "INVALID TIME SLOT" →
      has_time_conflict
        (parse_time_slot
          ((allocate_loop σ lab_rooms regular_rooms st cs).1.getD j
            dfltOut).course.days
          ((allocate_loop σ lab_rooms regular_rooms st cs).1.getD j
            dfltOut).course.times)
        (parse_time_slot
          ((allocate_loop σ lab_rooms regular_rooms st cs).1.getD i
            dfltOut).course.days
          ((allocate_loop σ lab_rooms regular_rooms st cs).1.getD i
            dfltOut).course.times) = false := by
  intro cs
  induction cs with
  | nil => intro st i j hij hj; exact absurd hj (Nat.not_lt_zero j)
  | cons c cs ih =>
    intro st i j hij hj hEq hRR hITS
    cases j with
    | zero => exact absurd hij (Nat.not_lt_zero i)
    | succ j =>
      rw [allocate_loop] at hEq hRR hITS ⊢
      dsimp only at hEq hRR hITS ⊢
      cases i with
      | zero =>
        simp only [List.getD_cons_zero, List.getD_cons_succ] at hEq hRR hITS ⊢
        rcases allocate_step_cases σ lab_rooms regular_rooms st c with
          ⟨_, hout, _⟩ | ⟨slot, room, hp, hf, hout, hst⟩ | ⟨slot, _, _, hout, _⟩
        · exact absurd hout hITS
        · rw [hout] at hEq
          rcases allocate_loop_assigned σ lab_rooms regular_rooms cs _ j
              (Nat.lt_of_succ_lt_succ hj) (hEq ▸ (hout ▸ hRR))
              (hEq ▸ (hout ▸ hITS)) with ⟨slotj, hpj, hallj⟩
          rw [hpj, allocate_step_course, hp]
          have hmem : slot ∈ (allocate_step σ lab_rooms regular_rooms st
              c).2.room_schedule room := by
            rw [hst, fairness_reset_sched, success_state_sched_self]
            exact List.mem_append_right _ (List.mem_singleton.mpr rfl)
          exact hallj slot (hEq ▸ hmem)
        · exact absurd hout hRR
      | succ i =>
        simp only [List.getD_cons_succ] at hEq hRR hITS ⊢
        exact ih _ i j (Nat.lt_of_succ_lt_succ hij)
          (Nat.lt_of_succ_lt_succ hj) hEq hRR hITS

theorem allocate_step_outcome {σ : Nat → List String → List String}
    (hσ : ∀ n l, (σ n l).Perm l) (lab_rooms regular_rooms : List String)
    (st : AllocState) (c : Session) :
    (allocate_step σ lab_rooms regular_rooms st c).1.allocated_room ∈
      lab_rooms ∨
    (allocate_step σ lab_rooms regular_rooms st c).1.allocated_room ∈
      regular_rooms ∨
    (allocate_step σ lab_rooms regular_rooms st c).1.allocated_room =
      "ROOM REQUIRED" ∨
    (allocate_step σ lab_rooms regular_rooms st c).1.allocated_room =
      "INVALID TIME SLOT" := by
  rcases allocate_step_cases σ lab_rooms regular_rooms st c with
    ⟨_, hout, _⟩ | ⟨slot, room, _, hf, hout, _⟩ | ⟨slot, _, _, hout, _⟩
  · exact Or.inr (Or.inr (Or.inr hout))
  · have hm := List.mem_of_find?_eq_some hf
    rcases (mem_preferred hσ hm).1 with h | h
    · exact Or.inl (hout ▸ h)
    · exact Or.inr (Or.inl (hout ▸ h))
  · exact Or.inr (Or.inr (Or.inl hout))

theorem allocate_loop_outcome {σ : Nat → List String → List String}
    (hσ : ∀ n l, (σ n l).Perm l) (lab_rooms regular_rooms : List String) :
    ∀ (cs : List Session) (st : AllocState) (i : Nat), i < cs.length →
      ((allocate_loop σ lab_rooms regular_rooms st cs).1.getD i
        dfltOut).allocated_room ∈ lab_rooms ∨
      ((allocate_loop σ lab_rooms regular_rooms st cs).1.getD i
        dfltOut).allocated_room ∈ regular_rooms ∨
      ((allocate_loop σ lab_rooms regular_rooms st cs).1.getD i
        dfltOut).allocated_room = "ROOM REQUIRED" ∨
      ((allocate_loop σ lab_rooms regular_rooms st cs).1.getD i
        dfltOut).allocated_room = "INVALID TIME SLOT" := by
  intro cs
  induction cs with
  | nil => intro st i hi; exact absurd hi (Nat.not_lt_zero i)
  | cons c cs ih =>
    intro st i hi
    rw [allocate_loop]
    dsimp only
    cases i with
    | zero =>
      simp only [List.getD_cons_zero]
      exact allocate_step_outcome hσ lab_rooms regular_rooms st c
    | succ i =>
      simp only [List.getD_cons_succ]
      exact ih _ i (Nat.lt_of_succ_lt_succ hi)

theorem allocate_step_fair (σ : Nat → List String → List String)
    (lab_rooms regular_rooms : List String) (st : AllocState) (c : Session)
    (h : st.recently_allocated = [] ↔ st.allocation_counter % 8 = 0) :
    (allocate_step σ lab_rooms regular_rooms st c).2.recently_allocated = [] ↔
      (allocate_step σ lab_rooms regular_rooms st c).2.allocation_counter %
        8 = 0 := by
  rcases allocate_step_cases σ lab_rooms regular_rooms st c with
    ⟨_, _, hst⟩ | ⟨slot, room, _, _, _, hst⟩ | ⟨slot, _, _, _, hst⟩
  · rw [hst]
    exact h
  · rw [hst, fairness_reset]
    split
    next hb =>
      simp only [beq_iff_eq] at hb
      simpa using hb
    next hb =>
      simp only [beq_iff_eq] at hb
      constructor
      · intro hrec
        exfalso
        rw [success_state] at hrec
        dsimp only at hrec
        split at hrec
        · next hmem => exact List.ne_nil_of_mem hmem hrec
        · exact List.cons_ne_nil _ _ hrec
      · intro hcnt
        exact absurd hcnt hb
  · rw [hst, fairness_reset]
    split
    next hb =>
      simp only [beq_iff_eq] at hb
      simpa using hb
    next hb =>
      exact h

theorem allocate_loop_fair (σ : Nat → List String → List String)
    (lab_rooms regular_rooms : List String) :
    ∀ (cs : List Session) (st : AllocState),
      (st.recently_allocated = [] ↔ st.allocation_counter % 8 = 0) →
      ((allocate_loop σ lab_rooms regular_rooms st cs).2.recently_allocated =
          [] ↔
        (allocate_loop σ lab_rooms regular_rooms st
          cs).2.allocation_counter % 8 = 0) := by
  intro cs
  induction cs with
  | nil => intro st h; exact h
  | cons c cs ih =>
    intro st h
    rw [allocate_loop]
    exact ih _ (allocate_step_fair σ lab_rooms regular_rooms st c h)

theorem allocate_loop_counter {σ : Nat → List String → List String}
    (hσ : ∀ n l, (σ n l).Perm l) (rooms_list : List String)
    (hRR : ¬ "ROOM REQUIRED" ∈ rooms_list)
    (hITS : ¬ "INVALID TIME SLOT" ∈ rooms_list)
    (lab_rooms regular_rooms : List String)
    (hlab : ∀ r ∈ lab_rooms, r ∈ rooms_list)
    (hreg : ∀ r ∈ regular_rooms, r ∈ rooms_list) :
    ∀ (cs : List Session) (st : AllocState),
      (allocate_loop σ lab_rooms regular_rooms st cs).2.allocation_counter =
        st.allocation_counter +
          ((allocate_loop σ lab_rooms regular_rooms st cs).1.filter
            (fun o => decide (o.allocated_room ∈ rooms_list))).length := by
  intro cs
  induction cs with
  | nil => intro st; simp [allocate_loop]
  | cons c cs ih =>
    intro st
    rw [allocate_loop]
    dsimp only
    rcases allocate_step_cases σ lab_rooms regular_rooms st c with
      ⟨_, hout, hst⟩ | ⟨slot, room, _, hf, hout, hst⟩ | ⟨slot, _, _, hout, hst⟩
    · rw [List.filter_cons, hout]
      simp only [decide_eq_true_eq, hITS, if_false]
      rw [ih, hst]
    · rw [List.filter_cons, hout]
      have hroomin : room ∈ rooms_list := by
        have hm := List.mem_of_find?_eq_some hf
        rcases (mem_preferred hσ hm).1 with h | h
        · exact hlab room h
        · exact hreg room h
      simp only [decide_eq_true_eq, hroomin, if_true]
      rw [List.length_cons, ih, hst, fairness_reset_counter]
      rw [success_state]
      dsimp only
      omega
    · rw [List.filter_cons, hout]
      simp only [decide_eq_true_eq, hRR, if_false]
      rw [ih, hst, fairness_reset_counter]

theorem allocate_loop_required {σ : Nat → List String → List String}
    (hσ : ∀ n l, (σ n l).Perm l) (rooms_list : List String)
    (hRR : ¬ "ROOM REQUIRED" ∈ rooms_list)
    (lab_rooms regular_rooms : List String)
    (hlab : ∀ r ∈ lab_rooms, r ∈ rooms_list)
    (hreg : ∀ r ∈ regular_rooms, r ∈ rooms_list) :
    ∀ (cs : List Session) (st : AllocState),
      (allocate_loop σ lab_rooms regular_rooms st cs).2.rooms_required_count =
        st.rooms_required_count +
          ((allocate_loop σ lab_rooms regular_rooms st cs).1.filter
            (fun o => o.allocated_room == "ROOM REQUIRED")).length := by
  intro cs
  induction cs with
  | nil => intro st; simp [allocate_loop]
  | cons c cs ih =>
    intro st
    rw [allocate_loop]
    dsimp only
    rcases allocate_step_cases σ lab_rooms regular_rooms st c with
      ⟨_, hout, hst⟩ | ⟨slot, room, _, hf, hout, hst⟩ | ⟨slot, _, _, hout, hst⟩
    · rw [List.filter_cons, hout, if_neg (by decide)]
      rw [ih, hst]
    · rw [List.filter_cons, hout]
      have hroomin : room ∈ rooms_list := by
        have hm := List.mem_of_find?_eq_some hf
        rcases (mem_preferred hσ hm).1 with h | h
        · exact hlab room h
        · exact hreg room h
      have hne : (room == "ROOM REQUIRED") = false := by
        refine beq_eq_false_iff_ne.mpr ?_
        intro hcontra
        exact hRR (hcontra ▸ hroomin)
      rw [if_neg (by simp [hne])]
      rw [ih, hst, fairness_reset_required]
      rw [success_state]
    · rw [List.filter_cons, hout]
      rw [if_pos (by rw [beq_self_eq_true])]
      rw [List.length_cons, ih, hst, fairness_reset_required]
      dsimp only
      omega

theorem allocate_loop_outcome_ne {σ : Nat → List String → List String}
    (hσ : ∀ n l, (σ n l).Perm l) (lab_rooms regular_rooms : List String)
    (s : String) (h1 : ¬ s ∈ lab_rooms) (h2 : ¬ s ∈ regular_rooms)
    (h3 : s ≠ "ROOM REQUIRED") (h4 : s ≠ "INVALID TIME SLOT") (h5 : s ≠ "") :
    ∀ (cs : List Session) (st : AllocState) (i : Nat),
      ((allocate_loop σ lab_rooms regular_rooms st cs).1.getD i
        dfltOut).allocated_room ≠ s := by
  intro cs st i
  by_cases hi : i < cs.length
  · rcases allocate_loop_outcome hσ lab_rooms regular_rooms cs st i hi with
      h | h | h | h
    · exact fun hc => h1 (hc ▸ h)
    · exact fun hc => h2 (hc ▸ h)
    · exact fun hc => h3 (hc ▸ h)
    · exact fun hc => h4 (hc ▸ h)
  · rw [List.getD_eq_default]
    · intro hc
      exact h5 (by rw [← hc]; rfl)
    · rw [allocate_loop_length]
      omega

theorem findTimePattern_of_no_match :
    ∀ (cs : List Char),
      (∀ i, i < cs.length → timeMatchAt (cs.drop i) = none) →
      findTimePattern cs = none := by
  intro cs
  induction cs with
  | nil => intro _; rfl
  | cons c cs ih =>
    intro h
    rw [findTimePattern]
    have h0 := h 0 (Nat.succ_pos _)
    rw [List.drop_zero] at h0
    rw [h0]
    exact ih (fun i hi => h (i + 1) (Nat.succ_lt_succ hi))

theorem digitVal_le_of_isDigitChar {c : Char} (h : isDigitChar c = true) :
    digitVal c ≤ 9 := by
  rw [isDigitChar] at h
  simp only [Bool.and_eq_true, decide_eq_true_eq] at h
  rw [digitVal]
  omega

theorem readHourDigits_le {cs : List Char} {h : Nat} {rest : List Char}
    (he : readHourDigits cs = some (h, rest)) : h ≤ 99 := by
  match cs with
  | [] => exact absurd he (by rw [readHourDigits]; exact Option.noConfusion)
  | [c] =>
    rw [readHourDigits] at he
    split at he
    · next hd =>
      have := digitVal_le_of_isDigitChar hd
      cases he
      omega
    · exact Option.noConfusion he
  | c1 :: c2 :: rest2 =>
    rw [readHourDigits] at he
    split at he
    · next hd1 =>
      split at he
      · next hd2 =>
        have i1 := digitVal_le_of_isDigitChar hd1
        have i2 := digitVal_le_of_isDigitChar hd2
        cases he
        omega
      · next =>
        have i1 := digitVal_le_of_isDigitChar hd1
        cases he
        omega
    · exact Option.noConfusion he

theorem readMinuteDigits_le {cs : List Char} {m : Nat} {rest : List Char}
    (he : readMinuteDigits cs = some (m, rest)) : m ≤ 99 := by
  match cs with
  | [] =>
    rw [show readMinuteDigits [] = none from rfl] at he
    exact Option.noConfusion he
  | [c] =>
    rw [show ∀ c, readMinuteDigits [c] = none from fun _ => rfl] at he
    exact Option.noConfusion he
  | c1 :: c2 :: rest2 =>
    rw [readMinuteDigits] at he
    split at he
    · next hd =>
      simp only [Bool.and_eq_true] at hd
      have i1 := digitVal_le_of_isDigitChar hd.1
      have i2 := digitVal_le_of_isDigitChar hd.2
      cases he
      omega
    · exact Option.noConfusion he

theorem readEndpoint_le {cs : List Char} {h m : Nat} {pm : Bool}
    {rest : List Char} (he : readEndpoint cs = some (h, m, pm, rest)) :
    h ≤ 99 ∧ m ≤ 99 := by
  rw [readEndpoint] at he
  cases hh : readHourDigits cs with
  | none => rw [hh] at he; exact Option.noConfusion he
  | some p1 =>
    obtain ⟨hv, cs1⟩ := p1
    rw [hh] at he
    dsimp only at he
    cases hc : expectChar ':' cs1 with
    | none => rw [hc] at he; exact Option.noConfusion he
    | some cs2 =>
      rw [hc] at he
      dsimp only at he
      cases hmm : readMinuteDigits cs2 with
      | none => rw [hmm] at he; exact Option.noConfusion he
      | some p2 =>
        obtain ⟨mv, cs3⟩ := p2
        rw [hmm] at he
        dsimp only at he
        cases hmd : readMeridiem (skipSpaces cs3) with
        | none => rw [hmd] at he; exact Option.noConfusion he
        | some p3 =>
          obtain ⟨pmv, cs4⟩ := p3
          rw [hmd] at he
          dsimp only at he
          cases he
          exact ⟨readHourDigits_le hh, readMinuteDigits_le hmm⟩

theorem timeMatchAt_le {cs : List Char} {h1 m1 h2 m2 : Nat} {pm1 pm2 : Bool}
    (he : timeMatchAt cs = some (h1, m1, pm1, h2, m2, pm2)) :
    h1 ≤ 99 ∧ m1 ≤ 99 ∧ h2 ≤ 99 ∧ m2 ≤ 99 := by
  rw [timeMatchAt] at he
  cases he1 : readEndpoint cs with
  | none => rw [he1] at he; exact Option.noConfusion he
  | some p1 =>
    obtain ⟨ha, mb, pb, csb⟩ := p1
    rw [he1] at he
    dsimp only at he
    cases he2 : expectChar '-' (skipSpaces csb) with
    | none => rw [he2] at he; exact Option.noConfusion he
    | some cs2 =>
      rw [he2] at he
      dsimp only at he
      cases he3 : readEndpoint (skipSpaces cs2) with
      | none => rw [he3] at he; exact Option.noConfusion he
      | some p2 =>
        obtain ⟨hcv, md, pd, csd⟩ := p2
        rw [he3] at he
        dsimp only at he
        cases he
        have b1 := readEndpoint_le he1
        have b2 := readEndpoint_le he3
        exact ⟨b1.1, b1.2, b2.1, b2.2⟩

theorem findTimePattern_le {cs : List Char} {h1 m1 h2 m2 : Nat}
    {pm1 pm2 : Bool}
    (he : findTimePattern cs = some (h1, m1, pm1, h2, m2, pm2)) :
    h1 ≤ 99 ∧ m1 ≤ 99 ∧ h2 ≤ 99 ∧ m2 ≤ 99 := by
  induction cs with
  | nil => exact absurd he (by rw [findTimePattern]; exact Option.noConfusion)
  | cons c rest ih =>
    rw [findTimePattern] at he
    cases hm : timeMatchAt (c :: rest) with
    | some g =>
      rw [hm] at he
      cases he
      exact timeMatchAt_le hm
    | none =>
      rw [hm] at he
      exact ih he

theorem to_minutes_le {hour minute : Nat} (pm : Bool) (hh : hour ≤ 99)
    (hm : minute ≤ 99) : to_minutes hour minute pm ≤ 6759 := by
  rw [to_minutes]
  split
  · omega
  · split <;> omega

/-- C1: No double booking: in every run of the allocation engine, any two
sessions that come out assigned the same room (a genuine room outcome,
not one of the diagnostic labels) have TimeSlots that the conflict
detector `has_time_conflict` reports as non-conflicting, in both orders. -/
theorem claim_C1_no_double_booking (σ : Nat → List String → List String)
    (courses : List Session) (rooms_list : List String) (i j : Nat)
    (hij : i < j) (hj : j < courses.length)
    (hEq : ((allocate_rooms σ courses rooms_list).1.getD i
        dfltOut).allocated_room =
      ((allocate_rooms σ courses rooms_list).1.getD j
        dfltOut).allocated_room)
    (hRR : ((allocate_rooms σ courses rooms_list).1.getD i
        dfltOut).allocated_room ≠ "ROOM REQUIRED")
    (hITS : ((allocate_rooms σ courses rooms_list).1.getD i
        dfltOut).allocated_room ≠ "INVALID TIME SLOT") :
    has_time_conflict
      (parse_time_slot
        ((allocate_rooms σ courses rooms_list).1.getD i dfltOut).course.days
        ((allocate_rooms σ courses rooms_list).1.getD i dfltOut).course.times)
      (parse_time_slot
        ((allocate_rooms σ courses rooms_list).1.getD j dfltOut).course.days
        ((allocate_rooms σ courses rooms_list).1.getD j dfltOut).course.times)
      = false ∧
    has_time_conflict
      (parse_time_slot
        ((allocate_rooms σ courses rooms_list).1.getD j dfltOut).course.days
        ((allocate_rooms σ courses rooms_list).1.getD j dfltOut).course.times)
      (parse_time_slot
        ((allocate_rooms σ courses rooms_list).1.getD i dfltOut).course.days
        ((allocate_rooms σ courses rooms_list).1.getD i dfltOut).course.times)
      = false := by
  have h := allocate_loop_no_double σ
    (rooms_list.filter (fun r => is_lab_room r))
    (rooms_list.filter (fun r => !is_lab_room r)) courses initState i j hij hj
    hEq hRR hITS
  exact ⟨(has_time_conflict_comm _ _).trans h, h⟩

theorem claim_C1_witness :
    (0 : Nat) < 1 ∧ 1 < [monNineSession, monTenSession].length ∧
    ((allocate_rooms constR1Shuffle [monNineSession, monTenSession]
        ["R1", "R2"]).1.getD 0 dfltOut).allocated_room =
      ((allocate_rooms constR1Shuffle [monNineSession, monTenSession]
        ["R1", "R2"]).1.getD 1 dfltOut).allocated_room ∧
    ((allocate_rooms constR1Shuffle [monNineSession, monTenSession]
        ["R1", "R2"]).1.getD 0 dfltOut).allocated_room ≠ "ROOM REQUIRED" ∧
    ((allocate_rooms constR1Shuffle [monNineSession, monTenSession]
        ["R1", "R2"]).1.getD 0 dfltOut).allocated_room ≠ "INVALID TIME SLOT" ∧
    (has_time_conflict
      (parse_time_slot
        ((allocate_rooms constR1Shuffle [monNineSession, monTenSession]
          ["R1", "R2"]).1.getD 0 dfltOut).course.days
        ((allocate_rooms constR1Shuffle [monNineSession, monTenSession]
          ["R1", "R2"]).1.getD 0 dfltOut).course.times)
      (parse_time_slot
        ((allocate_rooms constR1Shuffle [monNineSession, monTenSession]
          ["R1", "R2"]).1.getD 1 dfltOut).course.days
        ((allocate_rooms constR1Shuffle [monNineSession, monTenSession]
          ["R1", "R2"]).1.getD 1 dfltOut).course.times) = false ∧
    has_time_conflict
      (parse_time_slot
        ((allocate_rooms constR1Shuffle [monNineSession, monTenSession]
          ["R1", "R2"]).1.getD 1 dfltOut).course.days
        ((allocate_rooms constR1Shuffle [monNineSession, monTenSession]
          ["R1", "R2"]).1.getD 1 dfltOut).course.times)
      (parse_time_slot
        ((allocate_rooms constR1Shuffle [monNineSession, monTenSession]
          ["R1", "R2"]).1.getD 0 dfltOut).course.days
        ((allocate_rooms constR1Shuffle [monNineSession, monTenSession]
          ["R1", "R2"]).1.getD 0 dfltOut).course.times) = false) :=
  ⟨by decide, by decide, by decide, by decide, by decide,
    claim_C1_no_double_booking constR1Shuffle
      [monNineSession, monTenSession] ["R1", "R2"] 0 1
      (by decide) (by decide) (by decide) (by decide) (by decide)⟩

/-- C2: Completeness and outcome guarantee: for every run (with the
shuffle oracle a permutation, as `random.shuffle` is), the output has as
many records as the input, the i-th output record carries the i-th input
session, and its single outcome field is a room of the supplied list or
one of the two diagnostic labels. -/
theorem claim_C2_completeness (σ : Nat → List String → List String)
    (courses : List Session) (rooms_list : List String)
    (hσ : ∀ n l, (σ n l).Perm l) :
    (allocate_rooms σ courses rooms_list).1.length = courses.length ∧
    ∀ i, i < courses.length →
      ((allocate_rooms σ courses rooms_list).1.getD i dfltOut).course =
        courses.getD i dfltSession ∧
      (((allocate_rooms σ courses rooms_list).1.getD i
          dfltOut).allocated_room ∈ rooms_list ∨
        ((allocate_rooms σ courses rooms_list).1.getD i
          dfltOut).allocated_room = "ROOM REQUIRED" ∨
        ((allocate_rooms σ courses rooms_list).1.getD i
          dfltOut).allocated_room = "INVALID TIME SLOT") := by
  refine ⟨allocate_loop_length σ _ _ courses initState, fun i hi => ⟨?_, ?_⟩⟩
  · exact allocate_loop_getD_course σ _ _ courses initState i hi
  · rcases allocate_loop_outcome hσ
        (rooms_list.filter (fun r => is_lab_room r))
        (rooms_list.filter (fun r => !is_lab_room r)) courses initState i hi
      with h | h | h | h
    · exact Or.inl (List.mem_filter.mp h).1
    · exact Or.inl (List.mem_filter.mp h).1
    · exact Or.inr (Or.inl h)
    · exact Or.inr (Or.inr h)

theorem claim_C2_witness :
    (∀ n l, ((identityShuffle n l)).Perm l) ∧
    ((allocate_rooms identityShuffle [monNineSession, monTenSession]
        ["R1"]).1.length = [monNineSession, monTenSession].length ∧
      ∀ i, i < [monNineSession, monTenSession].length →
        ((allocate_rooms identityShuffle [monNineSession, monTenSession]
            ["R1"]).1.getD i dfltOut).course =
          [monNineSession, monTenSession].getD i dfltSession ∧
        (((allocate_rooms identityShuffle [monNineSession, monTenSession]
            ["R1"]).1.getD i dfltOut).allocated_room ∈ ["R1"] ∨
          ((allocate_rooms identityShuffle [monNineSession, monTenSession]
            ["R1"]).1.getD i dfltOut).allocated_room = "ROOM REQUIRED" ∨
          ((allocate_rooms identityShuffle [monNineSession, monTenSession]
            ["R1"]).1.getD i dfltOut).allocated_room = "INVALID TIME SLOT")) :=
  ⟨fun _ l => List.Perm.refl l,
    claim_C2_completeness identityShuffle [monNineSession, monTenSession]
      ["R1"] (fun _ l => List.Perm.refl l)⟩

/-- C3 counterexample: the time text "25:99 AM - 3:00 PM" DOES match the
source's pattern (the hour and minute fields only constrain digit counts),
so the parse succeeds and the session is allocated a room instead of
being marked INVALID TIME SLOT. -/
theorem claim_C3_counterexample :
    (parse_time_slot (some "Mon") (some "25:99 AM - 3:00 PM")).isSome =
      true ∧
    ((allocate_rooms identityShuffle [malformedSession]
      ["R1"]).1.getD 0 dfltOut).allocated_room = "R1" := by
  constructor
  · decide
  · decide

/-- C3 (amended): a time text containing no occurrence of the
`H:MM AM|PM - H:MM AM|PM` pattern at any position makes the parse fail
(absent); but "25:99 AM - 3:00 PM" does contain the pattern, since "25"
and "99" are valid 2-digit hour and minute fields, so that session
parses and is allocated normally (see the counterexample). -/
theorem claim_C3_amended_no_pattern_means_absent (days_str : Option String)
    (ts : String)
    (h : ∀ i ∈ List.range ts.data.length,
      timeMatchAt (ts.data.drop i) = none) :
    parse_time_slot days_str (some ts) = none := by
  have hfind : findTimePattern ts.data = none :=
    findTimePattern_of_no_match ts.data
      (fun i hi => h i (List.mem_range.mpr hi))
  cases days_str with
  | none => rfl
  | some ds =>
    rw [parse_time_slot]
    cases hsd : (tokens (ds.data.map Char.toLower)).filterMap dayOfToken with
    | nil => rfl
    | cons d rest =>
      rw [hfind]

theorem claim_C3_witness :
    (∀ i ∈ List.range "no slots here".data.length,
      timeMatchAt ("no slots here".data.drop i) = none) ∧
    parse_time_slot (some "Mon") (some "no slots here") = none :=
  ⟨by decide,
    claim_C3_amended_no_pattern_means_absent (some "Mon") "no slots here"
      (by decide)⟩

/-- C4 counterexample: the engine has no research/thesis or Friday
short-circuit: a Friday session and a research-program session are both
sent through the ordinary room search and get a room, not the labels
`No Room` and `Facroom` the claim requires. -/
theorem claim_C4_counterexample :
    ((allocate_rooms identityShuffle [friSession]
      ["R1"]).1.getD 0 dfltOut).allocated_room = "R1" ∧
    ((allocate_rooms identityShuffle [researchSession]
      ["R1"]).1.getD 0 dfltOut).allocated_room = "R1" := by
  constructor
  · decide
  · decide

/-- C4 (amended): the engine has no special-case short-circuits at all:
no run (shuffle oracle a permutation, room names distinct from the two
label strings) ever emits the outcome `Facroom` or `No Room`; program
membership and Friday meetings are simply not consulted, and a Friday
session with a conflict-free room available is assigned that room (see
the counterexample). -/
theorem claim_C4_amended_no_special_cases (σ : Nat → List String → List String)
    (courses : List Session) (rooms_list : List String)
    (hσ : ∀ n l, (σ n l).Perm l)
    (hFac : ¬ "Facroom" ∈ rooms_list) (hNo : ¬ "No Room" ∈ rooms_list)
    (i : Nat) :
    ((allocate_rooms σ courses rooms_list).1.getD i
      dfltOut).allocated_room ≠ "Facroom" ∧
    ((allocate_rooms σ courses rooms_list).1.getD i
      dfltOut).allocated_room ≠ "No Room" := by
  constructor
  · exact allocate_loop_outcome_ne hσ _ _ "Facroom"
      (fun hc => hFac (List.mem_filter.mp hc).1)
      (fun hc => hFac (List.mem_filter.mp hc).1)
      (by decide) (by decide) (by decide) courses initState i
  · exact allocate_loop_outcome_ne hσ _ _ "No Room"
      (fun hc => hNo (List.mem_filter.mp hc).1)
      (fun hc => hNo (List.mem_filter.mp hc).1)
      (by decide) (by decide) (by decide) courses initState i

theorem claim_C4_witness :
    (∀ n l, ((identityShuffle n l)).Perm l) ∧
    ¬ ("Facroom" : String) ∈ (["R1"] : List String) ∧
    ¬ ("No Room" : String) ∈ (["R1"] : List String) ∧
    (((allocate_rooms identityShuffle [friSession, researchSession]
        ["R1"]).1.getD 0 dfltOut).allocated_room ≠ "Facroom" ∧
      ((allocate_rooms identityShuffle [friSession, researchSession]
        ["R1"]).1.getD 0 dfltOut).allocated_room ≠ "No Room") :=
  ⟨fun _ l => List.Perm.refl l, by decide, by decide,
    claim_C4_amended_no_special_cases identityShuffle
      [friSession, researchSession] ["R1"] (fun _ l => List.Perm.refl l)
      (by decide) (by decide) 0⟩

/-- C5 counterexample: the parser CAN succeed with an out-of-range,
inverted slot: "25:99 AM - 3:00 PM" parses to start 1599 (not within
0..1439) and end 900 (not start < end). -/
theorem claim_C5_counterexample :
    parse_time_slot (some "Mon") (some "25:99 AM - 3:00 PM") =
      some { days := [Day.Mon], start_time := 1599, end_time := 900,
             original_days := "Mon",
             original_time := "25:99 AM - 3:00 PM" } ∧
    ¬ (1599 < 900) ∧ ¬ (1599 ≤ 1439) := by
  refine ⟨by decide, by decide, by decide⟩

/-- C5 (amended): when the parser succeeds the returned TimeSlot has a
nonempty weekday list and start and end at most 6759 = 111*60+99 (the
largest value `to_minutes` can produce from 2-digit fields); the claimed
0..1439 range and the `start < end` orientation are NOT guaranteed (see
the counterexample). -/
theorem claim_C5_amended_parser_ranges (days_str time_str : Option String)
    (slot : TimeSlot)
    (h : parse_time_slot days_str time_str = some slot) :
    slot.days ≠ [] ∧ slot.start_time ≤ 6759 ∧ slot.end_time ≤ 6759 := by
  cases days_str with
  | none =>
    cases time_str with
    | none => exact Option.noConfusion h
    | some ts => exact Option.noConfusion h
  | some ds =>
    cases time_str with
    | none => exact Option.noConfusion h
    | some ts =>
      rw [parse_time_slot] at h
      cases hsd : (tokens (ds.data.map Char.toLower)).filterMap dayOfToken with
      | nil => rw [hsd] at h; exact Option.noConfusion h
      | cons d rest =>
        rw [hsd] at h
        cases hft : findTimePattern ts.data with
        | none => rw [hft] at h; exact Option.noConfusion h
        | some g =>
          obtain ⟨h1, m1, pm1, h2, m2, pm2⟩ := g
          rw [hft] at h
          dsimp only at h
          cases h
          have hb := findTimePattern_le hft
          refine ⟨List.cons_ne_nil d rest, ?_, ?_⟩
          · exact to_minutes_le pm1 hb.1 hb.2.1
          · exact to_minutes_le pm2 hb.2.2.1 hb.2.2.2

theorem claim_C5_witness :
    parse_time_slot (some "Mon") (some "9:00 AM - 10:00 AM") =
      some { days := [Day.Mon], start_time := 540, end_time := 600,
             original_days := "Mon",
             original_time := "9:00 AM - 10:00 AM" } ∧
    (({ days := [Day.Mon], start_time := 540, end_time := 600,
        original_days := "Mon",
        original_time := "9:00 AM - 10:00 AM" } : TimeSlot).days ≠ [] ∧
      ({ days := [Day.Mon], start_time := 540, end_time := 600,
         original_days := "Mon",
         original_time := "9:00 AM - 10:00 AM" } : TimeSlot).start_time ≤
        6759 ∧
      ({ days := [Day.Mon], start_time := 540, end_time := 600,
         original_days := "Mon",
         original_time := "9:00 AM - 10:00 AM" } : TimeSlot).end_time ≤
        6759) :=
  ⟨by decide,
    claim_C5_amended_parser_ranges (some "Mon") (some "9:00 AM - 10:00 AM")
      _ (by decide)⟩

/-- C6: Conflict Detector semantics: false when either slot is absent;
for present slots, true exactly when the weekday sets intersect and the
minute intervals are not disjoint under `a.end <= b.start OR b.end <=
a.start`; in particular, on a shared day an interval ending at 600 does
not conflict with one starting at 600 (half-open), while one ending at
601 does conflict with one starting at 600. -/
theorem claim_C6_conflict_detector_semantics :
    (∀ b, has_time_conflict none b = false) ∧
    (∀ a, has_time_conflict a none = false) ∧
    (∀ s1 s2 : TimeSlot,
      (has_time_conflict (some s1) (some s2) = true ↔
        ((∃ d, d ∈ s1.days ∧ d ∈ s2.days) ∧
          ¬ (s1.end_time ≤ s2.start_time ∨
             s2.end_time ≤ s1.start_time)))) ∧
    has_time_conflict
      (some { days := [Day.Mon], start_time := 540, end_time := 600,
              original_days := "", original_time := "" })
      (some { days := [Day.Mon], start_time := 600, end_time := 660,
              original_days := "", original_time := "" }) = false ∧
    has_time_conflict
      (some { days := [Day.Mon], start_time := 500, end_time := 601,
              original_days := "", original_time := "" })
      (some { days := [Day.Mon], start_time := 600, end_time := 700,
              original_days := "", original_time := "" }) = true := by
  refine ⟨fun b => by cases b <;> rfl, fun a => by cases a <;> rfl,
    fun s1 s2 => ?_, by decide, by decide⟩
  rw [has_time_conflict]
  by_cases hdays : ∃ d, d ∈ s1.days ∧ d ∈ s2.days
  · have hc : (s1.days.any fun d => s2.days.any fun e => decide (d = e)) =
        true := by
      rcases hdays with ⟨d, h1, h2⟩
      exact List.any_eq_true.mpr ⟨d, h1,
        List.any_eq_true.mpr ⟨d, h2, by simp⟩⟩
    rw [hc, if_pos (by trivial)]
    constructor
    · intro hb
      refine ⟨hdays, ?_⟩
      simp only [Bool.not_eq_true', Bool.or_eq_false_iff,
        decide_eq_false_iff_not] at hb
      tauto
    · rintro ⟨-, hnot⟩
      simp only [Bool.not_eq_true', Bool.or_eq_false_iff,
        decide_eq_false_iff_not]
      tauto
  · have hc : (s1.days.any fun d => s2.days.any fun e => decide (d = e)) =
        false := by
      refine Bool.eq_false_iff.mpr (fun hany => hdays ?_)
      rcases List.any_eq_true.mp hany with ⟨d, hd, hin⟩
      rcases List.any_eq_true.mp hin with ⟨e, he, hde⟩
      exact ⟨d, hd, (decide_eq_true_eq.mp hde) ▸ he⟩
    rw [hc, if_neg (by simp)]
    exact ⟨fun h => Bool.noConfusion h, fun hcon => absurd hcon.1 hdays⟩

/-- C7 counterexample: a degenerate slot (start >= end, here 600-600) is
NOT conflict-free against everything: a slot strictly straddling it on a
shared day does conflict with it. -/
theorem claim_C7_counterexample :
    ({ days := [Day.Mon], start_time := 600, end_time := 600,
       original_days := "", original_time := "" } : TimeSlot).end_time ≤
      ({ days := [Day.Mon], start_time := 600, end_time := 600,
         original_days := "", original_time := "" } : TimeSlot).start_time ∧
    has_time_conflict
      (some { days := [Day.Mon], start_time := 600, end_time := 600,
              original_days := "", original_time := "" })
      (some { days := [Day.Mon], start_time := 500, end_time := 700,
              original_days := "", original_time := "" }) = true := by
  constructor
  · decide
  · decide

/-- C7 (amended): the overlap formula is not trivially false for a
degenerate slot: a slot strictly straddling it still conflicts (see the
counterexample).  What does hold is that two degenerate slots never
conflict with each other. -/
theorem claim_C7_amended_degenerate_pair (a b : TimeSlot)
    (ha : a.end_time ≤ a.start_time) (hb : b.end_time ≤ b.start_time) :
    has_time_conflict (some a) (some b) = false := by
  rw [has_time_conflict]
  split
  · simp only [Bool.not_eq_false', Bool.or_eq_true, decide_eq_true_eq]
    omega
  · rfl

theorem claim_C7_witness :
    ({ days := [Day.Mon], start_time := 600, end_time := 500,
       original_days := "", original_time := "" } : TimeSlot).end_time ≤
      ({ days := [Day.Mon], start_time := 600, end_time := 500,
         original_days := "", original_time := "" } : TimeSlot).start_time ∧
    ({ days := [Day.Mon], start_time := 650, end_time := 640,
       original_days := "", original_time := "" } : TimeSlot).end_time ≤
      ({ days := [Day.Mon], start_time := 650, end_time := 640,
         original_days := "", original_time := "" } : TimeSlot).start_time ∧
    has_time_conflict
      (some { days := [Day.Mon], start_time := 600, end_time := 500,
              original_days := "", original_time := "" })
      (some { days := [Day.Mon], start_time := 650, end_time := 640,
              original_days := "", original_time := "" }) = false :=
  ⟨by decide, by decide,
    claim_C7_amended_degenerate_pair _ _ (by decide) (by decide)⟩

/-- C8 counterexample: a lab-requiring session (MIS prefix) with no
conflict-free room gets the generic `ROOM REQUIRED` label, not
`IT LAB REQUIRED`, and the run returns the single shortfall counter 1
(the function returns one integer, not a general/lab pair). -/
theorem claim_C8_counterexample :
    ((allocate_rooms identityShuffle [misSession]
      []).1.getD 0 dfltOut).allocated_room = "ROOM REQUIRED" ∧
    (allocate_rooms identityShuffle [misSession] []).2 = 1 := by
  constructor
  · decide
  · decide

/-- C8 (amended): when no candidate room is conflict-free the session is
marked `ROOM REQUIRED` regardless of its lab requirement — the label
`IT LAB REQUIRED` never occurs — and the run returns one shortfall
counter, equal to the number of `ROOM REQUIRED` outcomes. -/
theorem claim_C8_amended_single_shortfall (σ : Nat → List String → List String)
    (courses : List Session) (rooms_list : List String)
    (hσ : ∀ n l, (σ n l).Perm l)
    (hRR : ¬ "ROOM REQUIRED" ∈ rooms_list)
    (hITL : ¬ "IT LAB REQUIRED" ∈ rooms_list) :
    (allocate_rooms σ courses rooms_list).2 =
      ((allocate_rooms σ courses rooms_list).1.filter
        (fun o => o.allocated_room == "ROOM REQUIRED")).length ∧
    ∀ i, ((allocate_rooms σ courses rooms_list).1.getD i
      dfltOut).allocated_room ≠ "IT LAB REQUIRED" := by
  constructor
  · have h := allocate_loop_required hσ rooms_list hRR
      (rooms_list.filter (fun r => is_lab_room r))
      (rooms_list.filter (fun r => !is_lab_room r))
      (fun r hr => (List.mem_filter.mp hr).1)
      (fun r hr => (List.mem_filter.mp hr).1) courses initState
    simpa [initState] using h
  · intro i
    exact allocate_loop_outcome_ne hσ _ _ "IT LAB REQUIRED"
      (fun hc => hITL (List.mem_filter.mp hc).1)
      (fun hc => hITL (List.mem_filter.mp hc).1)
      (by decide) (by decide) (by decide) courses initState i

theorem claim_C8_witness :
    (∀ n l, ((identityShuffle n l)).Perm l) ∧
    ¬ ("ROOM REQUIRED" : String) ∈ ([] : List String) ∧
    ¬ ("IT LAB REQUIRED" : String) ∈ ([] : List String) ∧
    ((allocate_rooms identityShuffle [misSession] []).2 =
      ((allocate_rooms identityShuffle [misSession] []).1.filter
        (fun o => o.allocated_room == "ROOM REQUIRED")).length ∧
      ∀ i, ((allocate_rooms identityShuffle [misSession] []).1.getD i
        dfltOut).allocated_room ≠ "IT LAB REQUIRED") :=
  ⟨fun _ l => List.Perm.refl l, by decide, by decide,
    claim_C8_amended_single_shortfall identityShuffle [misSession] []
      (fun _ l => List.Perm.refl l) (by decide) (by decide)⟩

/-- C9: Fairness reset cadence: after any number of processed sessions,
the recently-used set is empty exactly when the number of successful
allocations so far is a multiple of 8 (it starts empty at zero and is
cleared at each positive multiple of 8, staying nonempty strictly in
between); the allocation counter counts exactly the sessions whose
outcome is a room of the supplied list. -/
theorem claim_C9_fairness_reset (σ : Nat → List String → List String)
    (courses : List Session) (rooms_list : List String) (n : Nat)
    (hσ : ∀ n l, (σ n l).Perm l)
    (hRR : ¬ "ROOM REQUIRED" ∈ rooms_list)
    (hITS : ¬ "INVALID TIME SLOT" ∈ rooms_list) :
    ((allocate_run σ (courses.take n) rooms_list).2.recently_allocated =
        [] ↔
      (allocate_run σ (courses.take n)
        rooms_list).2.allocation_counter % 8 = 0) ∧
    (allocate_run σ (courses.take n) rooms_list).2.allocation_counter =
      ((allocate_run σ (courses.take n) rooms_list).1.filter
        (fun o => decide (o.allocated_room ∈ rooms_list))).length := by
  constructor
  · exact allocate_loop_fair σ _ _ (courses.take n) initState
      (by simp [initState])
  · have h := allocate_loop_counter hσ rooms_list hRR hITS
      (rooms_list.filter (fun r => is_lab_room r))
      (rooms_list.filter (fun r => !is_lab_room r))
      (fun r hr => (List.mem_filter.mp hr).1)
      (fun r hr => (List.mem_filter.mp hr).1) (courses.take n) initState
    simpa [initState] using h

theorem claim_C9_witness :
    (∀ n l, ((identityShuffle n l)).Perm l) ∧
    ¬ ("ROOM REQUIRED" : String) ∈ (["R1"] : List String) ∧
    ¬ ("INVALID TIME SLOT" : String) ∈ (["R1"] : List String) ∧
    (((allocate_run identityShuffle
          ([monNineSession, monTenSession].take 1)
          ["R1"]).2.recently_allocated = [] ↔
        (allocate_run identityShuffle
          ([monNineSession, monTenSession].take 1)
          ["R1"]).2.allocation_counter % 8 = 0) ∧
      (allocate_run identityShuffle
          ([monNineSession, monTenSession].take 1)
          ["R1"]).2.allocation_counter =
        ((allocate_run identityShuffle
            ([monNineSession, monTenSession].take 1) ["R1"]).1.filter
          (fun o => decide (o.allocated_room ∈ ["R1"]))).length) :=
  ⟨fun _ l => List.Perm.refl l, by decide, by decide,
    claim_C9_fairness_reset identityShuffle [monNineSession, monTenSession]
      ["R1"] 1 (fun _ l => List.Perm.refl l) (by decide) (by decide)⟩

/-- C10 (implicit): rooms in the recently-used set are excluded from the
candidate list outright, so no session is ever given a recently-used
room; consequently there is an input — two touching Monday sessions and
a single room — where the second session is marked `ROOM REQUIRED` even
though the only room's ledger holds nothing that conflicts with it. -/
theorem claim_C10_avoidable_shortfall (σ : Nat → List String → List String)
    (hσ : ∀ n l, (σ n l).Perm l) :
    (∀ (k : Nat) (l excl : List String) (r : String),
      r ∈ (distribute_rooms_by_priority σ l excl k).1 → ¬ r ∈ excl) ∧
    ((allocate_rooms identityShuffle [monNineSession, monTenSession]
      ["R1"]).1.getD 1 dfltOut).allocated_room = "ROOM REQUIRED" ∧
    ∀ e ∈ (allocate_run identityShuffle [monNineSession, monTenSession]
        ["R1"]).2.room_schedule "R1",
      has_time_conflict
        (parse_time_slot monTenSession.days monTenSession.times)
        (some e) = false := by
  refine ⟨fun k l excl r h => (mem_distribute hσ h).2, by decide, by decide⟩

theorem claim_C10_witness :
    (∀ n l, ((identityShuffle n l)).Perm l) ∧
    ("R1" : String) ∈
      (distribute_rooms_by_priority identityShuffle ["R1", "R2"]
        ["R2"] 0).1 ∧
    ¬ ("R1" : String) ∈ (["R2"] : List String) :=
  ⟨fun _ l => List.Perm.refl l, by decide,
    (claim_C10_avoidable_shortfall identityShuffle
      (fun _ l => List.Perm.refl l)).1 0 ["R1", "R2"] ["R2"] "R1"
      (by decide)⟩

end RoomAlloc
